import Mathlib

/-!
Verification development for the data/business-logic layer of the
aws-sso-extender-redux browser extension (`src/extension/extension.ts`).

The TypeScript code manipulates dynamically-typed JS objects backed by a
key-value browser storage.  We embed it at two levels:

* a dynamic level (`JsValue` / association-list objects) for the storage
  routines (`loadSettings`, `loadUser`, `saveUser`, `removeUser`,
  `importUserConfig`, `loadData`, `getDefaultUser`) whose behaviour depends
  on JS object semantics (`hasOwnProperty`, key backfill, `delete`,
  property spreading);
* a typed level mirroring the TypeScript interfaces (`UserData`,
  `AppData`, ...) for the pure resolution/URL functions
  (`customizeProfiles`, `createProfileUrl`, `findUserByProfileId`,
  the user re-resolution step of `navSelectedProfile`).

Values are serialized with `JSON.stringify` before being stored and parsed
back with `JSON.parse` on read; on the JSON-representable values the code
stores, parse ∘ stringify is the identity, so the store is modelled as
holding structured `JsValue`s directly.  `Date.now()` is modelled as an
explicit integer parameter.  Asynchronous storage calls always complete in
program order (the code awaits them or their order is irrelevant), so the
embedding threads the store state sequentially.
-/

/-- A JSON-representable JS value (plus `undefined`, which property access
on a missing key produces).  Objects are association lists in insertion
order, mirroring JS object key order; keys are unique in every object the
program builds. -/
inductive JsValue where
  | vUndef : JsValue
  | vNull : JsValue
  | vBool : Bool → JsValue
  | vNum : Int → JsValue
  | vStr : String → JsValue
  | vArr : List JsValue → JsValue
  | vObj : List (String × JsValue) → JsValue

/-- A JS object: ordered association list of fields. -/
abbrev JsObject := List (String × JsValue)

/-- First-match association-list lookup (JS property read on objects with
unique keys). -/
def alGet {α : Type} (o : List (String × α)) (k : String) : Option α :=
  (o.find? (fun p => p.1 = k)).map (fun p => p.2)

/-- `Object.prototype.hasOwnProperty.call(o, k)` / the `in` operator on an
object. -/
def hasKey {α : Type} (o : List (String × α)) (k : String) : Bool :=
  (alGet o k).isSome

/-- JS property access `o[k]`: `undefined` when the key is absent. -/
def jsGet (o : JsObject) (k : String) : JsValue :=
  (alGet o k).getD JsValue.vUndef

/-- JS property assignment `o[k] = v`: replaces the value in place when the
key exists, otherwise appends the key at the end (JS insertion order). -/
def setKey {α : Type} : List (String × α) → String → α → List (String × α)
  | [], k, v => [(k, v)]
  | p :: ps, k, v => if p.1 = k then (k, v) :: ps else p :: setKey ps k v

/-- JS `delete o[k]`. -/
def removeObjKey {α : Type} (o : List (String × α)) (k : String) : List (String × α) :=
  o.filter (fun p => p.1 ≠ k)

/-- The backfill loop used by `loadSettings` and `loadUser`:
`Object.keys(defaults).forEach(key => { if (!hasOwnProperty(o, key)) o[key] = defaults[key] })`. -/
def backfill {α : Type} (defaults : List (String × α)) (o : List (String × α)) :
    List (String × α) :=
  defaults.foldl (fun acc p => if hasKey acc p.1 then acc else acc ++ [p]) o

/-- JS truthiness of a value. -/
def jsTruthy : JsValue → Bool
  | .vUndef => false
  | .vNull => false
  | .vBool b => b
  | .vNum n => n ≠ 0
  | .vStr s => s ≠ ""
  | .vArr _ => true
  | .vObj _ => true

/-- JS strict equality `===` restricted to primitives.  The program only
compares primitive values (user-id strings, `null`, `undefined`); object
comparisons would be reference equality and are modelled as `false`. -/
def jsStrictEqPrim : JsValue → JsValue → Bool
  | .vUndef, .vUndef => true
  | .vNull, .vNull => true
  | .vBool a, .vBool b => a = b
  | .vNum a, .vNum b => a = b
  | .vStr a, .vStr b => a = b
  | _, _ => false

/-- JS string coercion as used in template literals.  Arrays join their
elements with commas; the program never interpolates an array, so that case
is left as the empty string. -/
def jsToString : JsValue → String
  | .vUndef => "undefined"
  | .vNull => "null"
  | .vBool b => if b then "true" else "false"
  | .vNum n => toString n
  | .vStr s => s
  | .vArr _ => ""
  | .vObj _ => "[object Object]"

/-- Property access `v.k` on an arbitrary value: objects look the key up,
other non-nullish values have no such property (`undefined`).  Access on
`null`/`undefined` throws in JS and is handled at the call sites. -/
def jsPropGet (v : JsValue) (k : String) : JsValue :=
  match v with
  | .vObj o => jsGet o k
  | _ => JsValue.vUndef

/-- View a parsed value as an object (the stored records the program reads
are always serialized objects). -/
def asObj : JsValue → JsObject
  | .vObj o => o
  | _ => []

/-- Extract the string elements of an array value (the profile-id and
user-id arrays the program stores hold only strings). -/
def asStringList : JsValue → List String
  | .vArr l => l.filterMap (fun v => match v with | .vStr s => some s | _ => none)
  | _ => []

/-- `[...new Set(l)]`: deduplication keeping the first occurrence. -/
def jsSetDedup (l : List String) : List String :=
  l.foldl (fun acc a => if a ∈ acc then acc else acc ++ [a]) []

/-- The hard-coded `defaultCustom` record (extension.ts lines 32-50). -/
def defaultCustomObj : JsObject :=
  [ ("accounts", .vObj []),
    ("accountsOverride", .vBool false),
    ("displayName", .vStr ""),
    ("sessionLabelSso", .vStr "\x7b\x7buser\x7d\x7d/\x7b\x7bprofile\x7d\x7d @ \x7b\x7baccount\x7d\x7d"),
    ("sessionLabelIam", .vStr "\x7b\x7buser\x7d\x7d/\x7b\x7brole\x7d\x7d @ \x7b\x7baccount\x7d\x7d via \x7b\x7bprofile\x7d\x7d"),
    ("colorDefault", .vStr "222f3e"),
    ("colorFooter", .vBool true),
    ("colorHeader", .vBool true),
    ("labelFooter", .vBool true),
    ("labelHeader", .vBool true),
    ("labelIcon", .vBool false),
    ("profiles", .vObj []),
    ("hotkeys", .vObj [("openProfile1", .vStr ""), ("openProfile2", .vStr ""), ("openProfile3", .vStr "")]) ]

/-- The hard-coded `defaultSettings` record (extension.ts lines 52-72). -/
def defaultSettingsObj : JsObject :=
  [ ("defaultUser", .vStr "lastUserId"),
    ("enableSync", .vBool true),
    ("lastUserId", .vNull),
    ("lastProfileId", .vNull),
    ("firefoxContainers", .vBool false),
    ("firefoxResumeContainer", .vBool true),
    ("firefoxExpireMinsContainer", .vNum 480),
    ("iconColor", .vStr "red"),
    ("navCurrentTab", .vBool false),
    ("showReleaseNotes", .vBool true),
    ("showAllProfiles", .vBool false),
    ("tableSettings", .vObj
      [ ("showAllUsers", .vBool false),
        ("showIamRoles", .vBool true),
        ("showIcon", .vBool true),
        ("sortCustom", .vBool false),
        ("sortApp", .vStr "desc"),
        ("sortProfile", .vBool false) ]) ]

/-- One storage area: a key-value map. -/
def Store : Type := String → Option JsValue

/-- `browser.storage.*.set({k: v})`. -/
def storeSet (s : Store) (k : String) (v : JsValue) : Store :=
  fun k' => if k' = k then some v else s k'

/-- `browser.storage.*.remove(keys)`. -/
def storeRemove (s : Store) (ks : List String) : Store :=
  fun k' => if k' ∈ ks then none else s k'

/-- The two browser storage areas (`storage.sync` and `storage.local`). -/
structure BrowserState where
  sync : Store
  localArea : Store

/-- The storage area selected by an `enableSync` flag
(`enableSync ? storage.sync : storage.local`). -/
def BrowserState.area (st : BrowserState) (es : Bool) : Store :=
  if es then st.sync else st.localArea

/-- Storage keys used by the program, templated by the configured
extension name (`config.name`). -/
def settingsKey (name : String) : String := name ++ "-settings"

def usersKey (name : String) : String := name ++ "-users"

def userKey (name uid : String) : String := name ++ "-user-" ++ uid

def customKey (name uid : String) : String := name ++ "-custom-" ++ uid

def iamKey (name : String) : String := name ++ "-iam-logins"

/-- `saveData`'s payload transformation:
`typeof data === 'object' ? { ...data, updatedAt: Date.now() } : data`.
`typeof` is `'object'` for objects, arrays and `null`; spreading an array
produces an object with decimal index keys, spreading `null` produces an
empty object. -/
def stampUpdatedAt (v : JsValue) (now : Int) : JsValue :=
  match v with
  | .vObj o => .vObj (setKey o "updatedAt" (.vNum now))
  | .vArr a => .vObj (setKey (a.enum.map (fun p => (toString p.1, p.2))) "updatedAt" (.vNum now))
  | .vNull => .vObj [("updatedAt", .vNum now)]
  | x => x

/-- `saveData(key, data, storage.sync)`. -/
def saveDataSync (st : BrowserState) (k : String) (v : JsValue) (now : Int) : BrowserState :=
  { st with sync := storeSet st.sync k (stampUpdatedAt v now) }

/-- `saveData(key, data, storage.local)`. -/
def saveDataLocal (st : BrowserState) (k : String) (v : JsValue) (now : Int) : BrowserState :=
  { st with localArea := storeSet st.localArea k (stampUpdatedAt v now) }

/-- `saveData` into the area selected by an `enableSync` flag. -/
def saveDataArea (st : BrowserState) (es : Bool) (k : String) (v : JsValue) (now : Int) :
    BrowserState :=
  if es then saveDataSync st k v now else saveDataLocal st k v now

/-- `loadIamLogins` (extension.ts lines 182-189): reads the flat
profile-id → IAM-role mapping from local storage, defaulting to empty. -/
def loadIamLogins (name : String) (st : BrowserState) : JsObject :=
  match st.localArea (iamKey name) with
  | none => []
  | some v => asObj v

/-- `loadSettings` (extension.ts lines 268-285): reads the settings record
from sync storage, using the default record when absent, then backfills
every missing default key. -/
def loadSettings (name : String) (st : BrowserState) : JsObject :=
  let stored := match st.sync (settingsKey name) with
    | none => defaultSettingsObj
    | some v => asObj v
  backfill defaultSettingsObj stored

/-- `loadUser` (extension.ts lines 216-239): reads the user record (empty
object when absent) and the customization record (default when absent) from
the area selected by `enableSync`, backfills missing customization keys,
and attaches the customization to the user object. -/
def loadUser (name uid : String) (es : Bool) (st : BrowserState) : JsObject :=
  let user := match st.area es (userKey name uid) with
    | none => []
    | some v => asObj v
  let custom := match st.area es (customKey name uid) with
    | none => defaultCustomObj
    | some v => asObj v
  let custom := backfill defaultCustomObj custom
  setKey user "custom" (.vObj custom)

/-- The synchronized user-id list read in `loadUsers` / `removeUser`:
`usersData[key] === undefined ? [] : JSON.parse(usersData[key]).users`
(the serialized form of any stored value is a nonempty, hence truthy,
string, so `removeUser`'s truthiness test coincides with this check). -/
def loadUsersList (name : String) (st : BrowserState) : List String :=
  match st.sync (usersKey name) with
  | none => []
  | some v => asStringList (jsGet (asObj v) "users")

/-- `loadUsers` (extension.ts lines 241-258): loads each listed user;
result order follows the id list. -/
def loadUsers (name : String) (es : Bool) (st : BrowserState) : List JsObject :=
  (loadUsersList name st).map (fun uid => loadUser name uid es st)

/-- `saveCustom` (extension.ts lines 426-432). -/
def saveCustom (name : String) (custom : JsValue) (uid : String) (es : Bool) (now : Int)
    (st : BrowserState) : BrowserState :=
  saveDataArea st es (customKey name uid) custom now

/-- `saveUser` (extension.ts lines 434-446): persists the customization
separately (when present), then the user record with `custom` cleared to an
empty object.  `t1` and `t2` are the two `Date.now()` readings. -/
def saveUser (name : String) (u : JsObject) (es : Bool) (t1 t2 : Int) (st : BrowserState) :
    BrowserState :=
  let uidStr := jsToString (jsGet u "userId")
  let st1 := if hasKey u "custom" then saveCustom name (jsGet u "custom") uidStr es t1 st else st
  saveDataArea st1 es (userKey name uidStr) (.vObj (setKey u "custom" (.vObj []))) t2

/-- `saveSettings` (extension.ts lines 260-266): settings are always saved
to the sync area. -/
def saveSettings (name : String) (settings : JsValue) (now : Int) (st : BrowserState) :
    BrowserState :=
  saveDataSync st (settingsKey name) settings now

/-- `removeUser` (extension.ts lines 364-410).  `loadUser` always returns
an object (never falsy), so the `if (!user)` guard never fires.  A single
`now` models the `Date.now()` readings of the successive writes. -/
def removeUser (name uid : String) (es : Bool) (now : Int) (st : BrowserState) : BrowserState :=
  let user := loadUser name uid es st
  -- remove the user record and customization record from the selected area
  let st1 : BrowserState :=
    if es then { st with sync := storeRemove st.sync [userKey name uid, customKey name uid] }
    else { st with localArea := storeRemove st.localArea [userKey name uid, customKey name uid] }
  let apIds := jsGet user "appProfileIds"
  -- if (user.appProfileIds && user.appProfileIds.length > 0) remove the profile records
  let st2 : BrowserState :=
    match apIds with
    | .vArr l =>
        if l.length > 0 then
          { st1 with localArea := storeRemove st1.localArea (asStringList (.vArr l)) }
        else st1
    | _ => st1
  -- if (user.appProfileIds) delete each owned profile id from the IAM-login map
  let st3 : BrowserState :=
    match apIds with
    | .vArr l =>
        let iam := loadIamLogins name st2
        let iam := (asStringList (.vArr l)).foldl (fun m pid => removeObjKey m pid) iam
        saveDataLocal st2 (iamKey name) (.vObj iam) now
    | _ => st2
  -- filter the user id out of the global id list and save it back
  let users := loadUsersList name st3
  let updatedUsers := users.filter (fun id => id ≠ uid)
  let st4 := saveDataSync st3 (usersKey name)
    (.vObj [("users", .vArr (updatedUsers.map JsValue.vStr))]) now
  -- update settings when the removed user was the default or last-active user
  let settings := loadSettings name st4
  if jsStrictEqPrim (jsGet settings "defaultUser") (.vStr uid)
      || jsStrictEqPrim (jsGet settings "lastUserId") (.vStr uid) then
    let settings1 := setKey settings "lastUserId" (.vStr (updatedUsers.headD ""))
    let settings2 :=
      if jsStrictEqPrim (jsGet settings "defaultUser") (.vStr uid) then
        setKey settings1 "defaultUser" (.vStr "lastUserId")
      else settings1
    saveSettings name (.vObj settings2) now st4
  else st4

/-- `importUserConfig` (extension.ts lines 684-704).  The `in` operator
throws on primitive/nullish values and `cfg.extension.enableSync` throws
when `cfg.extension` is nullish; both exceptions are caught by the
surrounding `try`, yielding `false`.  (For an array `cfg` the `in` checks
simply fail, with the same `(false, st)` outcome as the modelled
catch path.)  `saveSettings` runs before the throwing property access. -/
def importUserConfig (name uid : String) (cfg : JsValue) (t1 t2 : Int) (st : BrowserState) :
    Bool × BrowserState :=
  match cfg with
  | .vObj o =>
    if hasKey o "user" && hasKey o "extension" then
      let ext := jsGet o "extension"
      let st1 := saveSettings name ext t1 st
      match ext with
      | .vNull => (false, st1)
      | .vUndef => (false, st1)
      | _ =>
        let es := jsTruthy (jsPropGet ext "enableSync")
        (true, saveCustom name (jsGet o "user") uid es t2 st1)
    else (false, st)
  | _ => (false, st)

/-- The aggregate value produced by `loadData`. -/
structure ExtensionDataModel where
  updatedAt : JsValue
  appProfiles : List JsValue
  settings : JsObject
  users : List JsObject
  iamLogins : JsObject

/-- The strict "comes before" order of `loadData`'s user sort: the JS
comparator `(a, b) => (a.updatedAt > b.updatedAt ? -1 : 1)` moves `a`
before `b` exactly when `a.updatedAt > b.updatedAt` (comparisons involving
a missing `updatedAt` are false). -/
def userBefore (a b : JsObject) : Bool :=
  match alGet a "updatedAt", alGet b "updatedAt" with
  | some (.vNum x), some (.vNum y) => x > y
  | _, _ => false

/-- Insert into a sorted list: before the first element it strictly
precedes. -/
def insertByUpd (x : JsObject) : List JsObject → List JsObject
  | [] => [x]
  | y :: ys => if userBefore x y then x :: y :: ys else y :: insertByUpd x ys

/-- The descending `updatedAt` sort of `loadData`.  The JS comparator is
inconsistent on ties (it never returns 0), so tie order is
engine-dependent; the claims do not depend on it. -/
def sortUsers (l : List JsObject) : List JsObject :=
  l.foldr insertByUpd []

/-- `loadData` (extension.ts lines 296-321): loads IAM logins, settings and
users, sorts users by `updatedAt` descending, deduplicates the referenced
profile ids, loads each from local storage, keeps only the ids with a
stored record, and parses them. -/
def loadData (name : String) (st : BrowserState) : ExtensionDataModel :=
  let iamLogins := loadIamLogins name st
  let settings := loadSettings name st
  let users := loadUsers name (jsTruthy (jsGet settings "enableSync")) st
  let users := sortUsers users
  let uniqProfileIds := jsSetDedup ((users.map (fun u => asStringList (jsGet u "appProfileIds"))).flatten)
  let aps := uniqProfileIds.map (fun apId => st.localArea apId)
  { updatedAt := match users.head? with
      | some u => jsGet u "updatedAt"
      | none => .vNum 0
    appProfiles := (aps.filter (fun ap => ap.isSome)).map (fun ap => ap.getD .vNull)
    settings := settings
    users := users
    iamLogins := iamLogins }

/-- `getDefaultUser` (extension.ts lines 287-294). -/
def getDefaultUser (d : ExtensionDataModel) : Option JsObject :=
  if jsStrictEqPrim (jsGet d.settings "defaultUser") (.vStr "lastUserId") then
    let lastUser := d.users.find?
      (fun u => jsStrictEqPrim (jsGet u "userId") (jsGet d.settings "lastUserId"))
    match lastUser with
    | some u => some u
    | none => d.users.head?
  else
    (d.users.filter
      (fun u => jsStrictEqPrim (jsGet u "userId") (jsGet d.settings "defaultUser"))).head?

/-! ## Typed layer: the TypeScript interfaces used by the pure resolution
and URL functions.  The interface file `../types` is not part of the
provided sources; the field shapes are taken from how `extension.ts` uses
them and from the spec's data-model section. -/

/-- An IAM role-assumption target. -/
structure IamRole where
  profileId : String
  roleName : String
  accountId : String
  deriving DecidableEq, Repr

/-- The per-profile customization block (`CustomData`). -/
structure CustomData where
  favorite : Bool
  hide : Bool
  label : Option String
  iamRoles : List IamRole
  color : String
  deriving DecidableEq, Repr

/-- A per-account customization entry (`user.custom.accounts[accountId]`). -/
structure AccountCustom where
  label : Option String
  color : String
  deriving DecidableEq, Repr

/-- The three hotkey bindings. -/
structure Hotkeys where
  openProfile1 : String
  openProfile2 : String
  openProfile3 : String
  deriving DecidableEq, Repr

/-- Per-user customization (`UserData['custom']`), field set as in
`defaultCustom`. -/
structure UserCustom where
  accounts : List (String × AccountCustom)
  accountsOverride : Bool
  displayName : String
  sessionLabelSso : String
  sessionLabelIam : String
  colorDefault : String
  colorFooter : Bool
  colorHeader : Bool
  labelFooter : Bool
  labelHeader : Bool
  labelIcon : Bool
  profiles : List (String × CustomData)
  hotkeys : Hotkeys
  deriving DecidableEq, Repr

/-- A user record as consumed by the resolver and URL builder. -/
structure UserData where
  userId : String
  subject : String
  managedActiveDirectoryId : String
  appProfileIds : List String
  updatedAt : Int
  custom : UserCustom
  deriving DecidableEq, Repr

/-- `searchMetadata` of an AWS-account profile. -/
structure SearchMetadata where
  AccountId : String
  AccountName : String
  deriving DecidableEq, Repr

/-- The `profile` sub-record of an application profile. -/
structure ProfileInfo where
  id : String
  name : String
  custom : Option CustomData
  deriving DecidableEq, Repr

/-- One selectable application profile row (`AppData`): app-level fields
(`id`, `name`, `applicationName`) plus one `profile` sub-record and
optional `searchMetadata`. -/
structure AppData where
  id : String
  name : String
  applicationName : String
  profile : ProfileInfo
  searchMetadata : Option SearchMetadata
  deriving DecidableEq, Repr

/-- Typed extension-wide settings, fields as in `defaultSettings`. -/
structure TableSettings where
  showAllUsers : Bool
  showIamRoles : Bool
  showIcon : Bool
  sortCustom : Bool
  sortApp : String
  sortProfile : Bool
  deriving DecidableEq, Repr

structure ExtensionSettings where
  defaultUser : String
  enableSync : Bool
  lastUserId : Option String
  lastProfileId : Option String
  firefoxContainers : Bool
  firefoxResumeContainer : Bool
  firefoxExpireMinsContainer : Int
  iconColor : String
  navCurrentTab : Bool
  showReleaseNotes : Bool
  showAllProfiles : Bool
  tableSettings : TableSettings
  deriving DecidableEq, Repr

/-! ## Percent encoding (`encodeURIComponent` and `encodeUriPlusParens`,
extension.ts lines 15-17). -/

/-- UTF-8 bytes of a Unicode scalar value. -/
def utf8Bytes (c : Char) : List Nat :=
  let n := c.toNat
  if n < 0x80 then [n]
  else if n < 0x800 then [0xC0 + n / 64, 0x80 + n % 64]
  else if n < 0x10000 then [0xE0 + n / 4096, 0x80 + (n / 64) % 64, 0x80 + n % 64]
  else [0xF0 + n / 262144, 0x80 + (n / 4096) % 64, 0x80 + (n / 64) % 64, 0x80 + n % 64]

/-- Uppercase hexadecimal digit. -/
def hexDigitUpper (n : Nat) : Char :=
  "0123456789ABCDEF".data.getD n '0'

/-- A percent-escape `%XY` for one byte (uppercase, as produced by
`encodeURIComponent`). -/
def percentByte (b : Nat) : List Char :=
  ['%', hexDigitUpper (b / 16), hexDigitUpper (b % 16)]

/-- The characters `encodeURIComponent` leaves unescaped:
`A-Z a-z 0-9 - _ . ! ~ * ' ( )`. -/
def uriComponentUnescaped (c : Char) : Bool :=
  c.isAlphanum || c ∈ ['-', '_', '.', '!', '~', '*', '\'', '(', ')']

/-- `encodeURIComponent` on one character. -/
def encChar (c : Char) : List Char :=
  if uriComponentUnescaped c then [c] else ((utf8Bytes c).map percentByte).flatten

/-- JS `encodeURIComponent`. -/
def encodeURIComponent (s : String) : String :=
  String.mk ((s.data.map encChar).flatten)

/-- The five characters additionally escaped by `encodeUriPlusParens`. -/
def plusParensChars : List Char := ['!', '\'', '(', ')', '*']

/-- One step of `.replace(/[!'()*]/g, (c) => ` the escape
`'%' + c.charCodeAt(0).toString(16)` `)`: lowercase hex, per JS
`Number.prototype.toString`. -/
def replChar (c : Char) : List Char :=
  if c ∈ plusParensChars then '%' :: Nat.toDigits 16 c.toNat else [c]

/-- `encodeUriPlusParens` (extension.ts lines 15-17):
`encodeURIComponent(str).replace(/[!'()*]/g, c => '%' + code)`. -/
def encodeUriPlusParens (s : String) : String :=
  String.mk (((encodeURIComponent s).data.map replChar).flatten)

/-! ## The AWS console URL pattern (`consoleUrlRegex`, extension.ts
line 77):
`/^https:\/\/(((?<region>\w{2}-\w+-\d{1,2})|support|s3|health)\.console\.aws\.amazon|console\.amazonaws-us-gov)\.com\/(?<path>.*)?$/`.
A decidable matcher equivalent to this anchored regex: `\w` and `\d` never
match `-` or `.`, so the region part is exactly the (dot-free) segment
before the first dot and decomposes uniquely at its two dashes. -/

/-- JS `\w`: ASCII word characters. -/
def isWordChar (c : Char) : Bool :=
  c.isAlphanum || c = '_'

/-- JS `.` (no `s` flag): any character except a line terminator. -/
def notLineTerm (c : Char) : Bool :=
  c ≠ '\n' && c ≠ '\r' && c.toNat ≠ 0x2028 && c.toNat ≠ 0x2029

/-- Split a character list on a separator character. -/
def splitOnChar (sep : Char) : List Char → List (List Char)
  | [] => [[]]
  | c :: cs =>
    let r := splitOnChar sep cs
    if c = sep then [] :: r
    else
      match r with
      | [] => [[c]]
      | h :: t => (c :: h) :: t

/-- The region alternative `\w{2}-\w+-\d{1,2}` as a whole-segment match:
exactly three dash-separated parts, two word characters, then one or more
word characters, then one or two digits. -/
def regionFormL (cs : List Char) : Bool :=
  match splitOnChar '-' cs with
  | [p1, p2, p3] =>
    p1.length = 2 && p1.all isWordChar
    && p2.length ≥ 1 && p2.all isWordChar
    && p3.length ≥ 1 && p3.length ≤ 2 && p3.all (fun c => c.isDigit)
  | _ => false

/-- Match a literal pattern at the front, returning the remainder. -/
def dropLit (pat : List Char) (cs : List Char) : Option (List Char) :=
  if cs.take pat.length = pat then some (cs.drop pat.length) else none

/-- The fixed host alternatives of the regex, each already carrying the
`.com/` tail. -/
def fixedConsoleHosts : List String :=
  [ "support.console.aws.amazon.com/",
    "s3.console.aws.amazon.com/",
    "health.console.aws.amazon.com/",
    "console.amazonaws-us-gov.com/" ]

/-- Whether `currentTab.url.match(consoleUrlRegex)` succeeds. -/
def consoleUrlMatches (u : String) : Bool :=
  match dropLit "https://".data u.data with
  | none => false
  | some rest =>
    fixedConsoleHosts.any (fun h =>
      match dropLit h.data rest with
      | some p => p.all notLineTerm
      | none => false)
    ||
    (let r := rest.takeWhile (fun c => c ≠ '.')
     let rest2 := rest.dropWhile (fun c => c ≠ '.')
     regionFormL r &&
       match dropLit ".console.aws.amazon.com/".data rest2 with
       | some p => p.all notLineTerm
       | none => false)

/-- `createProfileUrl` (extension.ts lines 323-341).  The active-tab query
is modelled by the `currentTabUrl` argument (`none` when the tab has no
URL; `currentTab.url?.match` is then skipped).  Interpolating a missing
`searchMetadata?.AccountId` produces the string `"undefined"`. -/
def createProfileUrl (user : UserData) (appProfile : AppData) (currentTabUrl : Option String) :
    String :=
  let ssoDirUrl := "https://" ++ user.managedActiveDirectoryId ++ ".awsapps.com/start/#/saml"
  let appProfileName := encodeUriPlusParens appProfile.name
  if appProfile.profile.name = "Default" then
    ssoDirUrl ++ "/default/" ++ appProfileName ++ "/" ++ appProfile.id
  else
    let consoleUrl := "https://" ++ user.managedActiveDirectoryId
      ++ ".awsapps.com/start/#/console?account_id="
      ++ (match appProfile.searchMetadata with
          | some m => m.AccountId
          | none => "undefined")
      ++ "&role_name=" ++ appProfile.profile.name
    match currentTabUrl with
    | some url =>
      if consoleUrlMatches url then consoleUrl ++ "&destination=" ++ encodeURIComponent url
      else consoleUrl
    | none => consoleUrl

/-- `customizeProfiles` (extension.ts lines 463-499).  A missing
`searchMetadata` makes `profile.searchMetadata?.AccountId` evaluate to
`undefined`, which the `in` operator coerces to the key `"undefined"`. -/
def customizeProfiles (user : UserData) (appProfiles : List AppData) : List AppData :=
  let defaults : CustomData :=
    { favorite := false
      hide := false
      label := none
      iamRoles := []
      color := user.custom.colorDefault }
  appProfiles.map (fun ap =>
    let custom0 := match alGet user.custom.profiles ap.profile.id with
      | some c => c
      | none => defaults
    let profile := { ap with profile := { ap.profile with custom := some custom0 } }
    if profile.applicationName = "AWS Account" then
      let acctKey := match profile.searchMetadata with
        | some m => m.AccountId
        | none => "undefined"
      match alGet user.custom.accounts acctKey with
      | some acc =>
        if user.custom.accountsOverride = true ∨ custom0.color = user.custom.colorDefault then
          { profile with profile :=
              { profile.profile with custom := some { custom0 with color := acc.color } } }
        else profile
      | none => profile
    else profile)

/-- `findUserByProfileId` (extension.ts lines 558-567): starts from
`users[0]` and overwrites the candidate on every user whose
`appProfileIds` contains the id, so the last match wins.  `Option`
accounts for an empty list (`users[0]` is then `undefined`). -/
def findUserByProfileId (profileId : String) (users : List UserData) : Option UserData :=
  users.foldl (fun acc u => if u.appProfileIds.contains profileId then some u else acc)
    users.head?

/-- The user re-resolution step of `navSelectedProfile` (extension.ts
lines 612-620): with `showAllProfiles` enabled and a profile the passed
user does not own, the user is re-resolved via `findUserByProfileId`. -/
def navSelectedProfileUser (profile : AppData) (user : UserData) (users : List UserData)
    (settings : ExtensionSettings) : Option UserData :=
  if settings.showAllProfiles && !(user.appProfileIds.contains profile.profile.id) then
    findUserByProfileId profile.profile.id users
  else some user

/-! ## Helper lemmas about the association-list object operations. -/

theorem alGet_cons {α : Type} (p : String × α) (ps : List (String × α)) (k : String) :
    alGet (p :: ps) k = if p.1 = k then some p.2 else alGet ps k := by
  unfold alGet
  rw [List.find?_cons]
  by_cases h : p.1 = k
  · simp [h]
  · simp [h]

theorem alGet_append {α : Type} (a b : List (String × α)) (k : String) :
    alGet (a ++ b) k = (alGet a k).or (alGet b k) := by
  unfold alGet
  rw [List.find?_append]
  cases a.find? (fun p => p.1 = k) <;> simp [Option.or]

theorem hasKey_iff_alGet {α : Type} {o : List (String × α)} {k : String} :
    hasKey o k = true ↔ ∃ v, alGet o k = some v := by
  unfold hasKey
  cases alGet o k <;> simp

theorem hasKey_eq_false_iff {α : Type} {o : List (String × α)} {k : String} :
    hasKey o k = false ↔ alGet o k = none := by
  unfold hasKey
  cases alGet o k <;> simp

/-- What `backfill` computes at each key: the stored value when present,
otherwise the default value. -/
theorem alGet_backfill {α : Type} (defaults o : List (String × α)) (k : String) :
    alGet (backfill defaults o) k = (alGet o k).or (alGet defaults k) := by
  induction defaults generalizing o with
  | nil =>
    show alGet o k = (alGet o k).or (alGet [] k)
    cases alGet o k <;> simp [alGet, Option.or]
  | cons p ps ih =>
    unfold backfill at *
    rw [List.foldl_cons]
    by_cases hp : hasKey o p.1 = true
    · rw [if_pos hp, ih o, alGet_cons]
      by_cases hpk : p.1 = k
      · subst hpk
        obtain ⟨v, hv⟩ := hasKey_iff_alGet.mp hp
        rw [hv, if_pos rfl, Option.or_some, Option.or_some]
      · rw [if_neg hpk]
    · rw [if_neg hp, ih (o ++ [p]), alGet_append]
      have hsing : alGet [p] k = if p.1 = k then some p.2 else none := by
        rw [alGet_cons]
        simp only [show alGet ([] : List (String × α)) k = none from rfl]
      rw [hsing, alGet_cons]
      by_cases hpk : p.1 = k
      · have h0 : alGet o k = none := by
          rw [← hpk]
          exact hasKey_eq_false_iff.mp (by simpa using hp)
        rw [if_pos hpk, if_pos hpk, h0, Option.none_or, Option.or_some]
      · rw [if_neg hpk, if_neg hpk, Option.or_none]

theorem alGet_setKey_self {α : Type} (o : List (String × α)) (k : String) (v : α) :
    alGet (setKey o k v) k = some v := by
  induction o with
  | nil => simp [setKey, alGet_cons]
  | cons p ps ih =>
    unfold setKey
    by_cases hp : p.1 = k
    · simp [hp, alGet_cons]
    · rw [if_neg hp, alGet_cons, if_neg hp]
      exact ih

theorem alGet_setKey_other {α : Type} (o : List (String × α)) (k k' : String) (v : α)
    (h : k' ≠ k) : alGet (setKey o k v) k' = alGet o k' := by
  induction o with
  | nil =>
    show alGet [(k, v)] k' = alGet [] k'
    rw [alGet_cons, if_neg (fun he : k = k' => h he.symm)]
  | cons p ps ih =>
    unfold setKey
    by_cases hp : p.1 = k
    · rw [if_pos hp, alGet_cons, alGet_cons, if_neg (fun he : k = k' => h he.symm),
        if_neg (hp ▸ fun he : p.1 = k' => h (hp ▸ he).symm)]
    · rw [if_neg hp, alGet_cons, alGet_cons]
      by_cases hq : p.1 = k'
      · rw [if_pos hq, if_pos hq]
      · rw [if_neg hq, if_neg hq]
        exact ih

theorem alGet_removeObjKey {α : Type} (o : List (String × α)) (k k' : String) :
    alGet (removeObjKey o k) k' = if k' = k then none else alGet o k' := by
  induction o with
  | nil =>
    unfold removeObjKey
    by_cases h : k' = k <;> simp [h, alGet, List.find?_nil]
  | cons p ps ih =>
    unfold removeObjKey at *
    rw [List.filter_cons]
    by_cases hp : p.1 = k
    · simp only [show (decide (p.1 ≠ k)) = false by simp [hp], Bool.false_eq_true, if_false]
      rw [ih, alGet_cons]
      by_cases hk : k' = k
      · simp [hk]
      · rw [if_neg hk, if_neg hk, if_neg (by rw [hp]; exact fun he => hk he.symm)]
    · simp only [show (decide (p.1 ≠ k)) = true by simp [hp]]
      rw [if_pos trivial, alGet_cons, alGet_cons, ih]
      by_cases hq : p.1 = k'
      · have : ¬ (k' = k) := by rw [← hq]; exact fun he => hp he
        simp [hq, this]
      · rw [if_neg hq, if_neg hq]

theorem alGet_foldl_removeObjKey {α : Type} (ks : List String) (o : List (String × α))
    (k : String) :
    alGet (ks.foldl (fun m pid => removeObjKey m pid) o) k =
      if k ∈ ks then none else alGet o k := by
  induction ks generalizing o with
  | nil => simp
  | cons q qs ih =>
    rw [List.foldl_cons, ih]
    by_cases hm : k ∈ qs
    · simp [hm]
    · rw [if_neg hm, alGet_removeObjKey]
      by_cases hk : k = q
      · simp [hk]
      · rw [if_neg hk, if_neg (by simp [hk, hm])]

theorem storeSet_get (s : Store) (k k' : String) (v : JsValue) :
    storeSet s k v k' = if k' = k then some v else s k' := rfl

theorem storeRemove_get (s : Store) (ks : List String) (k' : String) :
    storeRemove s ks k' = if k' ∈ ks then none else s k' := rfl

/-! ## Claim theorems. -/

/-- Claim C5: loading settings (`loadSettings`) or customization
(`loadUser`'s custom record) from a store with no stored record yields
exactly the hard-coded default record; loading from a stored record missing
some default keys yields the stored value for every present key and the
default value for every absent key, with no present key overwritten. -/
theorem loadSettings_loadUser_defaults_backfill
    (name uid : String) (es : Bool) (st : BrowserState) :
    (st.sync (settingsKey name) = none → loadSettings name st = defaultSettingsObj)
    ∧ (st.area es (customKey name uid) = none →
        alGet (loadUser name uid es st) "custom" = some (.vObj defaultCustomObj))
    ∧ (∀ o k, st.sync (settingsKey name) = some (.vObj o) →
        (hasKey o k = true → alGet (loadSettings name st) k = alGet o k)
        ∧ (hasKey o k = false → alGet (loadSettings name st) k = alGet defaultSettingsObj k))
    ∧ (∀ c k, st.area es (customKey name uid) = some (.vObj c) →
        ∃ cl, alGet (loadUser name uid es st) "custom" = some (.vObj cl)
          ∧ (hasKey c k = true → alGet cl k = alGet c k)
          ∧ (hasKey c k = false → alGet cl k = alGet defaultCustomObj k)) := by
  refine ⟨?_, ?_, ?_, ?_⟩
  · intro h
    simp only [loadSettings, h]
    rfl
  · intro h
    simp only [loadUser, h]
    rw [alGet_setKey_self]
    rfl
  · intro o k h
    simp only [loadSettings, h]
    constructor
    · intro hk
      obtain ⟨v, hv⟩ := hasKey_iff_alGet.mp hk
      rw [show asObj (.vObj o) = o from rfl, alGet_backfill, hv, Option.or_some]
    · intro hk
      rw [show asObj (.vObj o) = o from rfl, alGet_backfill, hasKey_eq_false_iff.mp hk,
        Option.none_or]
  · intro c k h
    simp only [loadUser, h]
    refine ⟨backfill defaultCustomObj (asObj (.vObj c)), alGet_setKey_self _ _ _, ?_, ?_⟩
    · intro hk
      obtain ⟨v, hv⟩ := hasKey_iff_alGet.mp hk
      rw [show asObj (.vObj c) = c from rfl, alGet_backfill, hv, Option.or_some]
    · intro hk
      rw [show asObj (.vObj c) = c from rfl, alGet_backfill, hasKey_eq_false_iff.mp hk,
        Option.none_or]

/-- Witness for C5 at concrete stores: an empty store yields the default
records; a store holding a partial settings record (only `iconColor`)
keeps the stored key and backfills a missing one (`enableSync`), and a
partial customization record (only `colorDefault`) behaves likewise. -/
theorem loadSettings_loadUser_defaults_backfill_witness :
    (loadSettings "n" ⟨fun _ => none, fun _ => none⟩ = defaultSettingsObj)
    ∧ (alGet (loadUser "n" "u" true ⟨fun _ => none, fun _ => none⟩) "custom"
        = some (.vObj defaultCustomObj))
    ∧ (alGet
        (loadSettings "n"
          ⟨storeSet (fun _ => none) "n-settings" (.vObj [("iconColor", .vStr "blue")]),
            fun _ => none⟩) "iconColor" = some (.vStr "blue"))
    ∧ (alGet
        (loadSettings "n"
          ⟨storeSet (fun _ => none) "n-settings" (.vObj [("iconColor", .vStr "blue")]),
            fun _ => none⟩) "enableSync" = some (.vBool true)) := by
  refine ⟨?_, ?_, ?_, ?_⟩
  · exact (loadSettings_loadUser_defaults_backfill "n" "u" true _).1 rfl
  · exact (loadSettings_loadUser_defaults_backfill "n" "u" true _).2.1 rfl
  · exact (((loadSettings_loadUser_defaults_backfill "n" "u" true _).2.2.1
      [("iconColor", .vStr "blue")] "iconColor" rfl).1 rfl).trans rfl
  · exact (((loadSettings_loadUser_defaults_backfill "n" "u" true _).2.2.1
      [("iconColor", .vStr "blue")] "enableSync" rfl).2 rfl).trans rfl

/-- Reading the selected area after an area-selected `saveData`. -/
theorem saveDataArea_area_get (st : BrowserState) (es : Bool) (k : String) (v : JsValue)
    (t : Int) (k' : String) :
    (saveDataArea st es k v t).area es k'
      = if k' = k then some (stampUpdatedAt v t) else st.area es k' := by
  cases es <;> rfl

/-- Claim C7: saving a user and loading it back by id returns a record
equal to the input except that `custom` is reconstituted from the
separately stored customization record (the persisted user record itself
carries `custom` cleared to an empty object) and an `updatedAt` timestamp
has been added or advanced.  `t1`/`t2` are the `Date.now()` readings of the
two writes. -/
theorem saveUser_loadUser_roundtrip
    (name uid : String) (es : Bool) (t1 t2 : Int) (st : BrowserState)
    (u c : JsObject)
    (hid : alGet u "userId" = some (.vStr uid))
    (hc : alGet u "custom" = some (.vObj c))
    (hk : userKey name uid ≠ customKey name uid) :
    (∃ su, (saveUser name u es t1 t2 st).area es (userKey name uid) = some (.vObj su)
        ∧ alGet su "custom" = some (.vObj []))
    ∧ (∀ k, k ≠ "custom" → k ≠ "updatedAt" →
        alGet (loadUser name uid es (saveUser name u es t1 t2 st)) k = alGet u k)
    ∧ alGet (loadUser name uid es (saveUser name u es t1 t2 st)) "custom"
        = some (.vObj (backfill defaultCustomObj (setKey c "updatedAt" (.vNum t1))))
    ∧ alGet (loadUser name uid es (saveUser name u es t1 t2 st)) "updatedAt"
        = some (.vNum t2) := by
  have hjs : jsGet u "userId" = .vStr uid := by unfold jsGet; rw [hid]; rfl
  have hjc : jsGet u "custom" = .vObj c := by unfold jsGet; rw [hc]; rfl
  have hck : hasKey u "custom" = true := by unfold hasKey; rw [hc]; rfl
  have hSave : saveUser name u es t1 t2 st
      = saveDataArea (saveDataArea st es (customKey name uid) (.vObj c) t1) es
          (userKey name uid) (.vObj (setKey u "custom" (.vObj []))) t2 := by
    simp only [saveUser, saveCustom, hjs, jsToString, hck, if_true, hjc]
  have h1 : (saveUser name u es t1 t2 st).area es (userKey name uid)
      = some (.vObj (setKey (setKey u "custom" (.vObj [])) "updatedAt" (.vNum t2))) := by
    rw [hSave, saveDataArea_area_get, if_pos rfl]
    rfl
  have h2 : (saveUser name u es t1 t2 st).area es (customKey name uid)
      = some (.vObj (setKey c "updatedAt" (.vNum t1))) := by
    rw [hSave, saveDataArea_area_get, if_neg (fun he => hk he.symm),
      saveDataArea_area_get, if_pos rfl]
    rfl
  have hLoad : loadUser name uid es (saveUser name u es t1 t2 st)
      = setKey (setKey (setKey u "custom" (.vObj [])) "updatedAt" (.vNum t2)) "custom"
          (.vObj (backfill defaultCustomObj (setKey c "updatedAt" (.vNum t1)))) := by
    simp only [loadUser, h1, h2]
    rfl
  refine ⟨⟨setKey (setKey u "custom" (.vObj [])) "updatedAt" (.vNum t2), h1, ?_⟩, ?_, ?_, ?_⟩
  · rw [alGet_setKey_other _ _ _ _ (by decide), alGet_setKey_self]
  · intro k hkc hku
    rw [hLoad, alGet_setKey_other _ _ _ _ hkc, alGet_setKey_other _ _ _ _ hku,
      alGet_setKey_other _ _ _ _ hkc]
  · rw [hLoad, alGet_setKey_self]
  · rw [hLoad, alGet_setKey_other _ _ _ _ (by decide), alGet_setKey_self]

/-- Witness for C7 at a concrete user record, customization, store and
timestamps. -/
theorem saveUser_loadUser_roundtrip_witness :
    (∃ su,
      (saveUser "n" [("userId", .vStr "u"), ("managedActiveDirectoryId", .vStr "d"),
          ("custom", .vObj [("colorDefault", .vStr "abc123")])] true 5 7
        ⟨fun _ => none, fun _ => none⟩).area true (userKey "n" "u") = some (.vObj su)
      ∧ alGet su "custom" = some (.vObj []))
    ∧ alGet
        (loadUser "n" "u" true
          (saveUser "n" [("userId", .vStr "u"), ("managedActiveDirectoryId", .vStr "d"),
              ("custom", .vObj [("colorDefault", .vStr "abc123")])] true 5 7
            ⟨fun _ => none, fun _ => none⟩)) "managedActiveDirectoryId"
        = some (.vStr "d")
    ∧ alGet
        (loadUser "n" "u" true
          (saveUser "n" [("userId", .vStr "u"), ("managedActiveDirectoryId", .vStr "d"),
              ("custom", .vObj [("colorDefault", .vStr "abc123")])] true 5 7
            ⟨fun _ => none, fun _ => none⟩)) "custom"
        = some (.vObj (backfill defaultCustomObj
            (setKey [("colorDefault", .vStr "abc123")] "updatedAt" (.vNum 5))))
    ∧ alGet
        (loadUser "n" "u" true
          (saveUser "n" [("userId", .vStr "u"), ("managedActiveDirectoryId", .vStr "d"),
              ("custom", .vObj [("colorDefault", .vStr "abc123")])] true 5 7
            ⟨fun _ => none, fun _ => none⟩)) "updatedAt"
        = some (.vNum 7) := by
  obtain ⟨w1, w2, w3, w4⟩ := saveUser_loadUser_roundtrip "n" "u" true 5 7
    ⟨fun _ => none, fun _ => none⟩
    [("userId", .vStr "u"), ("managedActiveDirectoryId", .vStr "d"),
      ("custom", .vObj [("colorDefault", .vStr "abc123")])]
    [("colorDefault", .vStr "abc123")] rfl rfl (by decide)
  exact ⟨w1, (w2 "managedActiveDirectoryId" (by decide) (by decide)).trans rfl, w3, w4⟩

/-- Reading the sync area after an area-selected `saveData`. -/
theorem saveDataArea_sync_get (st : BrowserState) (es : Bool) (k : String) (v : JsValue)
    (t : Int) (k' : String) :
    (saveDataArea st es k v t).sync k'
      = if es = true ∧ k' = k then some (stampUpdatedAt v t) else st.sync k' := by
  cases es with
  | false => simp [saveDataArea, saveDataLocal]
  | true =>
    by_cases hk : k' = k
    · simp [saveDataArea, saveDataSync, storeSet, hk]
    · simp [saveDataArea, saveDataSync, storeSet, hk]

/-- Counterexample to claim C8 as stated: with both top-level keys present
but `extension` null, `importUserConfig` returns `false`, not `true`
(reading `cfg.extension.enableSync` throws and the `try` swallows it). -/
theorem importUserConfig_null_extension_counterexample :
    hasKey [("user", JsValue.vObj []), ("extension", JsValue.vNull)] "user" = true
    ∧ hasKey [("user", JsValue.vObj []), ("extension", JsValue.vNull)] "extension" = true
    ∧ (importUserConfig "n" "u" (.vObj [("user", .vObj []), ("extension", .vNull)]) 1 2
        ⟨fun _ => none, fun _ => none⟩).1 = false :=
  ⟨rfl, rfl, rfl⟩

/-- Claim C8, amended: `importUserConfig` returns `false` without touching
the state when `cfg` is not an object or lacks a top-level `user` or
`extension` key; when both keys are present and `cfg.extension` is neither
null nor undefined it overwrites Settings with `cfg.extension`, overwrites
the user's Customization with `cfg.user` (in the area chosen by the
truthiness of `cfg.extension.enableSync`), and returns `true`; when both
keys are present but `cfg.extension` is null/undefined, the Settings write
has already been issued and the thrown property access is caught, returning
`false`.  In all cases a boolean is returned and no exception escapes. -/
theorem importUserConfig_amended
    (name uid : String) (t1 t2 : Int) (st : BrowserState) (cfg : JsValue) :
    ((∀ o, cfg ≠ .vObj o) → importUserConfig name uid cfg t1 t2 st = (false, st))
    ∧ (∀ o, cfg = .vObj o → (hasKey o "user" && hasKey o "extension") = false →
        importUserConfig name uid cfg t1 t2 st = (false, st))
    ∧ (∀ o ext, cfg = .vObj o → hasKey o "user" = true → hasKey o "extension" = true →
        jsGet o "extension" = ext → ext ≠ .vNull → ext ≠ .vUndef →
        settingsKey name ≠ customKey name uid →
        (importUserConfig name uid cfg t1 t2 st).1 = true
        ∧ (importUserConfig name uid cfg t1 t2 st).2.sync (settingsKey name)
            = some (stampUpdatedAt ext t1)
        ∧ (importUserConfig name uid cfg t1 t2 st).2.area
              (jsTruthy (jsPropGet ext "enableSync")) (customKey name uid)
            = some (stampUpdatedAt (jsGet o "user") t2))
    ∧ (∀ o, cfg = .vObj o → hasKey o "user" = true → hasKey o "extension" = true →
        jsGet o "extension" = .vNull →
        (importUserConfig name uid cfg t1 t2 st).1 = false
        ∧ (importUserConfig name uid cfg t1 t2 st).2
            = saveSettings name .vNull t1 st) := by
  refine ⟨?_, ?_, ?_, ?_⟩
  · intro h
    cases cfg with
    | vObj o => exact absurd rfl (h o)
    | vUndef => rfl
    | vNull => rfl
    | vBool b => rfl
    | vNum n => rfl
    | vStr s => rfl
    | vArr l => rfl
  · intro o he h
    subst he
    simp [importUserConfig, h]
  · intro o ext he h1 h2 hext hn hu hsk
    subst he
    have hboth : (hasKey o "user" && hasKey o "extension") = true := by rw [h1, h2]; rfl
    have hred : importUserConfig name uid (.vObj o) t1 t2 st
        = (true, saveCustom name (jsGet o "user") uid
            (jsTruthy (jsPropGet ext "enableSync")) t2
            (saveSettings name ext t1 st)) := by
      cases ext with
      | vNull => exact absurd rfl hn
      | vUndef => exact absurd rfl hu
      | vBool b => simp only [importUserConfig, hboth, if_true, hext]
      | vNum n => simp only [importUserConfig, hboth, if_true, hext]
      | vStr s => simp only [importUserConfig, hboth, if_true, hext]
      | vArr l => simp only [importUserConfig, hboth, if_true, hext]
      | vObj oo => simp only [importUserConfig, hboth, if_true, hext]
    rw [hred]
    refine ⟨rfl, ?_, ?_⟩
    · show (saveCustom name (jsGet o "user") uid _ t2 (saveSettings name ext t1 st)).sync
        (settingsKey name) = _
      unfold saveCustom
      rw [saveDataArea_sync_get, if_neg (fun hcon => hsk hcon.2)]
      simp [saveSettings, saveDataSync, storeSet]
    · unfold saveCustom
      rw [saveDataArea_area_get, if_pos rfl]
  · intro o he h1 h2 hext
    subst he
    have hboth : (hasKey o "user" && hasKey o "extension") = true := by rw [h1, h2]; rfl
    simp only [importUserConfig, hboth, if_true, hext]
    exact ⟨trivial, trivial⟩

/-- Witness for the amended C8 at concrete inputs: a config missing the
`extension` key is rejected without modification, and a well-formed config
is imported with both records written. -/
theorem importUserConfig_amended_witness :
    (importUserConfig "n" "u" (.vObj [("user", .vObj [])]) 1 2
        ⟨fun _ => none, fun _ => none⟩ = (false, ⟨fun _ => none, fun _ => none⟩))
    ∧ ((importUserConfig "n" "u"
          (.vObj [("user", .vObj [("displayName", .vStr "me")]),
                  ("extension", .vObj [("enableSync", .vBool true)])]) 1 2
          ⟨fun _ => none, fun _ => none⟩).1 = true
        ∧ (importUserConfig "n" "u"
            (.vObj [("user", .vObj [("displayName", .vStr "me")]),
                    ("extension", .vObj [("enableSync", .vBool true)])]) 1 2
            ⟨fun _ => none, fun _ => none⟩).2.sync (settingsKey "n")
          = some (stampUpdatedAt (.vObj [("enableSync", .vBool true)]) 1)
        ∧ (importUserConfig "n" "u"
            (.vObj [("user", .vObj [("displayName", .vStr "me")]),
                    ("extension", .vObj [("enableSync", .vBool true)])]) 1 2
            ⟨fun _ => none, fun _ => none⟩).2.area
              (jsTruthy (jsPropGet (.vObj [("enableSync", .vBool true)]) "enableSync"))
              (customKey "n" "u")
          = some (stampUpdatedAt (jsGet [("user", .vObj [("displayName", .vStr "me")]),
                    ("extension", .vObj [("enableSync", .vBool true)])] "user") 2)) := by
  constructor
  · exact (importUserConfig_amended "n" "u" 1 2 ⟨fun _ => none, fun _ => none⟩
      (.vObj [("user", .vObj [])])).2.1 [("user", .vObj [])] rfl rfl
  · exact (importUserConfig_amended "n" "u" 1 2 ⟨fun _ => none, fun _ => none⟩
      (.vObj [("user", .vObj [("displayName", .vStr "me")]),
              ("extension", .vObj [("enableSync", .vBool true)])])).2.2.1
      [("user", .vObj [("displayName", .vStr "me")]),
        ("extension", .vObj [("enableSync", .vBool true)])]
      (.vObj [("enableSync", .vBool true)]) rfl rfl rfl rfl
      (by intro h; cases h) (by intro h; cases h) (by decide)

/-- Claim C1: for every user and every profile whose `applicationName` is
the AWS-account type and whose account id has an entry in
`user.custom.accounts`, `customizeProfiles` sets the resolved custom color
to the account-level color exactly when `accountsOverride` is true or the
profile's current custom color (its per-profile override if present,
otherwise the user's default color) equals `user.custom.colorDefault`;
otherwise the profile's own color is preserved. -/
theorem customizeProfiles_account_color
    (user : UserData) (aps : List AppData) (i : Nat)
    (hi : i < aps.length) (hlen : i < (customizeProfiles user aps).length)
    (m : SearchMetadata) (acc : AccountCustom)
    (happ : aps[i].applicationName = "AWS Account")
    (hm : aps[i].searchMetadata = some m)
    (hacc : alGet user.custom.accounts m.AccountId = some acc) :
    ((customizeProfiles user aps)[i]).profile.custom.map CustomData.color
      = some (if user.custom.accountsOverride = true
            ∨ (match alGet user.custom.profiles aps[i].profile.id with
               | some c => c.color
               | none => user.custom.colorDefault) = user.custom.colorDefault
          then acc.color
          else (match alGet user.custom.profiles aps[i].profile.id with
                | some c => c.color
                | none => user.custom.colorDefault)) := by
  simp only [customizeProfiles, List.getElem_map]
  cases halp : alGet user.custom.profiles aps[i].profile.id with
  | some c =>
    simp only [halp, happ, hm, hacc, if_pos rfl]
    by_cases hcond : user.custom.accountsOverride = true ∨ c.color = user.custom.colorDefault
    · rw [if_pos hcond, if_pos hcond, if_pos trivial]
      rfl
    · rw [if_neg hcond, if_neg hcond, if_pos trivial]
      rfl
  | none =>
    simp only [halp, happ, hm, hacc, if_pos rfl]
    simp

/-- The spec's example customization: `colorDefault = "222f3e"`,
`accountsOverride = false`, account `111111111111` with custom color
`"ff0000"`, and a per-profile override whose color is `profColor`. -/
def c1ExampleUser (profColor : String) : UserData :=
  { userId := "u"
    subject := "s"
    managedActiveDirectoryId := "d-123"
    appProfileIds := ["p1"]
    updatedAt := 0
    custom :=
      { accounts := [("111111111111", { label := none, color := "ff0000" })]
        accountsOverride := false
        displayName := ""
        sessionLabelSso := ""
        sessionLabelIam := ""
        colorDefault := "222f3e"
        colorFooter := true
        colorHeader := true
        labelFooter := true
        labelHeader := true
        labelIcon := false
        profiles := [("p1", { favorite := false, hide := false, label := none,
                              iamRoles := [], color := profColor })]
        hotkeys := { openProfile1 := "", openProfile2 := "", openProfile3 := "" } } }

/-- The spec's example AWS-account profile on account `111111111111`. -/
def c1ExampleProfile : AppData :=
  { id := "app1"
    name := "AWS Account"
    applicationName := "AWS Account"
    profile := { id := "p1", name := "Admin", custom := none }
    searchMetadata := some { AccountId := "111111111111", AccountName := "prod" } }

/-- Witness for C1 at the spec's example: with `accountsOverride = false`,
a profile whose own color is the default `"222f3e"` resolves to the account
color `"ff0000"`, while a profile pre-set to `"00ff00"` keeps `"00ff00"`. -/
theorem customizeProfiles_account_color_witness :
    ((customizeProfiles (c1ExampleUser "222f3e") [c1ExampleProfile]).get
        ⟨0, by decide⟩).profile.custom.map CustomData.color = some "ff0000"
    ∧ ((customizeProfiles (c1ExampleUser "00ff00") [c1ExampleProfile]).get
        ⟨0, by decide⟩).profile.custom.map CustomData.color = some "00ff00" := by
  constructor
  · exact (customizeProfiles_account_color (c1ExampleUser "222f3e") [c1ExampleProfile] 0
      (by decide) (by decide) { AccountId := "111111111111", AccountName := "prod" }
      { label := none, color := "ff0000" } rfl rfl rfl).trans rfl
  · exact (customizeProfiles_account_color (c1ExampleUser "00ff00") [c1ExampleProfile] 0
      (by decide) (by decide) { AccountId := "111111111111", AccountName := "prod" }
      { label := none, color := "ff0000" } rfl rfl rfl).trans rfl

/-- A customization record with no per-account or per-profile overrides. -/
def c2EmptyCustom : UserCustom :=
  { accounts := []
    accountsOverride := false
    displayName := ""
    sessionLabelSso := ""
    sessionLabelIam := ""
    colorDefault := "222f3e"
    colorFooter := true
    colorHeader := true
    labelFooter := true
    labelHeader := true
    labelIcon := false
    profiles := []
    hotkeys := { openProfile1 := "", openProfile2 := "", openProfile3 := "" } }

/-- A user owning the given profile ids. -/
def c2User (id : String) (ps : List String) : UserData :=
  { userId := id
    subject := ""
    managedActiveDirectoryId := ""
    appProfileIds := ps
    updatedAt := 0
    custom := c2EmptyCustom }

/-- A profile row with profile id `p1`. -/
def c2Profile : AppData :=
  { id := "a"
    name := "n"
    applicationName := "AWS Account"
    profile := { id := "p1", name := "r", custom := none }
    searchMetadata := none }

/-- Settings with `showAllProfiles` enabled. -/
def c2Settings : ExtensionSettings :=
  { defaultUser := "lastUserId"
    enableSync := true
    lastUserId := none
    lastProfileId := none
    firefoxContainers := false
    firefoxResumeContainer := true
    firefoxExpireMinsContainer := 480
    iconColor := "red"
    navCurrentTab := false
    showReleaseNotes := true
    showAllProfiles := true
    tableSettings := { showAllUsers := false, showIamRoles := true, showIcon := true,
                       sortCustom := false, sortApp := "desc", sortProfile := false } }

/-- The accumulator pattern of `findUserByProfileId`: a fold that
overwrites on every match keeps the last match (falling back to the
initial value). -/
theorem foldl_if_last_match {α : Type} (P : α → Bool) (l : List α) (init : Option α) :
    l.foldl (fun acc u => if P u then some u else acc) init
      = ((l.filter P).getLast?).or init := by
  induction l generalizing init with
  | nil => rfl
  | cons h t ih =>
    rw [List.foldl_cons, ih, List.filter_cons]
    by_cases hP : P h = true
    · simp only [hP, if_true]
      cases hft : (t.filter P) with
      | nil => simp
      | cons a as =>
        rw [List.getLast?_cons_cons]
        cases hgl : (a :: as).getLast? with
        | none => exact absurd (List.getLast?_eq_none_iff.mp hgl) (by simp)
        | some x => rw [Option.or_some, Option.or_some]
    · simp only [hP, Bool.false_eq_true, if_false]

/-- Counterexample to claim C2 as stated: with two users both owning the
selected profile id, the re-resolution picks the second (last) user in the
list, not the first. -/
theorem navSelectedProfile_first_match_counterexample :
    c2Settings.showAllProfiles = true
    ∧ "p1" ∈ (c2User "first" ["p1"]).appProfileIds
    ∧ navSelectedProfileUser c2Profile (c2User "outsider" [])
        [c2User "first" ["p1"], c2User "second" ["p1"]] c2Settings
        = some (c2User "second" ["p1"])
    ∧ c2User "second" ["p1"] ≠ c2User "first" ["p1"] := by
  refine ⟨rfl, by decide, rfl, by decide⟩

/-- Claim C2, amended: when `settings.showAllProfiles` is enabled, the
chosen profile does not belong to the passed user, and at least one user in
the list owns the profile id, `navSelectedProfile` re-resolves the user to
the LAST user in the list whose `appProfileIds` contains the id (the
`forEach` in `findUserByProfileId` overwrites the candidate on every
match). -/
theorem navSelectedProfile_last_owner
    (profile : AppData) (user : UserData) (users : List UserData)
    (settings : ExtensionSettings)
    (hshow : settings.showAllProfiles = true)
    (hnot : user.appProfileIds.contains profile.profile.id = false)
    (hex : ∃ u ∈ users, u.appProfileIds.contains profile.profile.id = true) :
    navSelectedProfileUser profile user users settings
      = (users.filter (fun u => u.appProfileIds.contains profile.profile.id)).getLast? := by
  have hcond : (settings.showAllProfiles
      && !(user.appProfileIds.contains profile.profile.id)) = true := by
    rw [hshow, hnot]
    rfl
  unfold navSelectedProfileUser
  rw [if_pos hcond]
  unfold findUserByProfileId
  rw [foldl_if_last_match]
  obtain ⟨u, hu, hmem⟩ := hex
  cases hl : (users.filter (fun u => u.appProfileIds.contains profile.profile.id)).getLast? with
  | some x => rw [Option.or_some]
  | none =>
    rw [List.getLast?_eq_none_iff] at hl
    exact absurd hmem (List.filter_eq_nil_iff.mp hl u hu)

/-- Witness for the amended C2: at the counterexample's input the
re-resolved user is the last owner in the list. -/
theorem navSelectedProfile_last_owner_witness :
    navSelectedProfileUser c2Profile (c2User "outsider" [])
        [c2User "first" ["p1"], c2User "second" ["p1"]] c2Settings
      = some (c2User "second" ["p1"]) := by
  exact (navSelectedProfile_last_owner c2Profile (c2User "outsider" [])
    [c2User "first" ["p1"], c2User "second" ["p1"]] c2Settings rfl rfl
    ⟨c2User "first" ["p1"], by decide, by decide⟩).trans rfl

/-- A profile row whose `profile.name` is `Default` and whose app-level
name needs escaping. -/
def c3DefaultProfile : AppData :=
  { id := "app9"
    name := "My App!"
    applicationName := "My App!"
    profile := { id := "p9", name := "Default", custom := none }
    searchMetadata := none }

/-- Characters that may appear in the output of the component encoding:
RFC-3986 unreserved characters or percent-escape material. -/
def safeChar (c : Char) : Bool :=
  c.isAlphanum || c = '-' || c = '_' || c = '.' || c = '~' || c = '%'

theorem hexDigitUpper_alnum (n : Nat) : (hexDigitUpper n).isAlphanum = true := by
  have hall : ∀ c ∈ "0123456789ABCDEF".data, c.isAlphanum = true := by decide
  unfold hexDigitUpper
  rcases hg : "0123456789ABCDEF".data.get? n with _ | c
  · rw [List.getD_eq_getElem?_getD, ← List.get?_eq_getElem?, hg]
    decide
  · rw [List.getD_eq_getElem?_getD, ← List.get?_eq_getElem?, hg]
    exact hall c (List.get?_mem hg)

theorem percentByte_chars (b : Nat) :
    ∀ x ∈ percentByte b, x.isAlphanum = true ∨ x = '%' := by
  intro x hx
  unfold percentByte at hx
  simp only [List.mem_cons, List.not_mem_nil, or_false] at hx
  rcases hx with rfl | rfl | rfl
  · exact Or.inr rfl
  · exact Or.inl (hexDigitUpper_alnum _)
  · exact Or.inl (hexDigitUpper_alnum _)

/-- Every character emitted by `encodeURIComponent` for one input character
is alphanumeric or one of the unescaped marks plus `%`. -/
theorem encChar_chars (c : Char) :
    ∀ x ∈ encChar c,
      x.isAlphanum = true ∨ x ∈ ['-', '_', '.', '!', '~', '*', '\'', '(', ')', '%'] := by
  intro x hx
  unfold encChar at hx
  by_cases hu : uriComponentUnescaped c = true
  · rw [if_pos hu] at hx
    rw [List.mem_singleton] at hx
    subst hx
    unfold uriComponentUnescaped at hu
    rcases (show x.isAlphanum = true ∨ x ∈ ['-', '_', '.', '!', '~', '*', '\'', '(', ')']
        by simpa using hu) with ha | hm
    · exact Or.inl ha
    · refine Or.inr ?_
      fin_cases hm <;> decide
  · rw [if_neg hu] at hx
    obtain ⟨l, hl, hxl⟩ := List.mem_flatten.mp hx
    obtain ⟨b, _, rfl⟩ := List.mem_map.mp hl
    rcases percentByte_chars b x hxl with ha | he
    · exact Or.inl ha
    · subst he
      exact Or.inr (by decide)

/-- Every character of `encodeUriPlusParens`'s output is an RFC-3986
unreserved character or percent-escape material: the encoding escapes all
reserved characters and additionally `!`, `'`, `(`, `)`, `*`. -/
theorem encodeUriPlusParens_safe (s : String) :
    (encodeUriPlusParens s).data.all safeChar = true := by
  rw [List.all_eq_true]
  intro x hx
  have hx' : x ∈ (((encodeURIComponent s).data.map replChar).flatten) := hx
  obtain ⟨l, hl, hxl⟩ := List.mem_flatten.mp hx'
  obtain ⟨c, hc, rfl⟩ := List.mem_map.mp hl
  have hcs : c.isAlphanum = true ∨ c ∈ ['-', '_', '.', '!', '~', '*', '\'', '(', ')', '%'] := by
    have hc' : c ∈ ((s.data.map encChar).flatten) := hc
    obtain ⟨l2, hl2, hcl2⟩ := List.mem_flatten.mp hc'
    obtain ⟨c0, _, rfl⟩ := List.mem_map.mp hl2
    exact encChar_chars c0 c hcl2
  unfold replChar at hxl
  by_cases hp : c ∈ plusParensChars
  · rw [if_pos hp] at hxl
    fin_cases hp <;> exact List.all_eq_true.mp (by decide) x hxl
  · rw [if_neg hp] at hxl
    rw [List.mem_singleton] at hxl
    subst hxl
    rcases hcs with ha | hm
    · simp [safeChar, ha]
    · fin_cases hm <;> first
        | decide
        | exact absurd (by decide) hp

/-- Claim C3: for every user and every application profile whose
`profile.name` equals `"Default"`, `createProfileUrl` returns the
SSO-directory deep link
`https://{managedActiveDirectoryId}.awsapps.com/start/#/saml/default/{urlEncodedProfileName}/{profile.id}`,
where the profile name (the row's `name` field) is percent-encoded by
`encodeUriPlusParens`, an RFC-3986-style component encoding that
additionally escapes `! ' ( ) *` (second conjunct: its output consists
solely of unreserved characters and percent-escape material). -/
theorem createProfileUrl_default_branch
    (user : UserData) (appProfile : AppData) (currentTabUrl : Option String)
    (h : appProfile.profile.name = "Default") :
    createProfileUrl user appProfile currentTabUrl
      = "https://" ++ user.managedActiveDirectoryId ++ ".awsapps.com/start/#/saml/default/"
        ++ encodeUriPlusParens appProfile.name ++ "/" ++ appProfile.id
    ∧ ∀ s : String, (encodeUriPlusParens s).data.all safeChar = true := by
  constructor
  · simp only [createProfileUrl, if_pos h,
      show (".awsapps.com/start/#/saml/default/" : String)
        = ".awsapps.com/start/#/saml" ++ "/default/" from rfl,
      String.append_assoc]
  · exact encodeUriPlusParens_safe

/-- Witness for C3: at a concrete user and `Default`-named profile the
deep link and the escaping of `! ' ( ) *` are evaluated. -/
theorem createProfileUrl_default_branch_witness :
    createProfileUrl (c2User "u" []) c3DefaultProfile none
      = "https://.awsapps.com/start/#/saml/default/My%20App%21/app9"
    ∧ (encodeUriPlusParens "My App!").data.all safeChar = true := by
  constructor
  · exact ((createProfileUrl_default_branch (c2User "u" []) c3DefaultProfile none rfl).1).trans
      (by decide)
  · exact (createProfileUrl_default_branch (c2User "u" []) c3DefaultProfile none rfl).2
      "My App!"

/-- Claim C4: for every user and every application profile whose
`profile.name` is not `"Default"`, `createProfileUrl` returns the console
federation link
`https://{managedActiveDirectoryId}.awsapps.com/start/#/console?account_id={accountId}&role_name={roleName}`,
with a percent-encoded `destination` parameter carrying the current tab's
URL appended exactly when that URL matches the AWS-console URL pattern
(`consoleUrlRegex`); with no tab URL, no `destination` appears. -/
theorem createProfileUrl_console_branch
    (user : UserData) (appProfile : AppData) (tabUrl : String)
    (h : appProfile.profile.name ≠ "Default") :
    (createProfileUrl user appProfile (some tabUrl)
      = "https://" ++ user.managedActiveDirectoryId ++ ".awsapps.com/start/#/console?account_id="
        ++ (match appProfile.searchMetadata with
            | some m => m.AccountId
            | none => "undefined")
        ++ "&role_name=" ++ appProfile.profile.name
        ++ (if consoleUrlMatches tabUrl = true
            then "&destination=" ++ encodeURIComponent tabUrl
            else ""))
    ∧ createProfileUrl user appProfile none
      = "https://" ++ user.managedActiveDirectoryId ++ ".awsapps.com/start/#/console?account_id="
        ++ (match appProfile.searchMetadata with
            | some m => m.AccountId
            | none => "undefined")
        ++ "&role_name=" ++ appProfile.profile.name := by
  constructor
  · simp only [createProfileUrl, if_neg h]
    by_cases hm : consoleUrlMatches tabUrl = true
    · rw [if_pos hm, if_pos hm, String.append_assoc]
    · rw [if_neg hm, if_neg hm, String.append_empty]
  · simp only [createProfileUrl, if_neg h]

set_option maxRecDepth 100000 in
/-- Witness for C4 at a concrete profile: a console tab URL gets a
percent-encoded `destination`; a non-console URL does not. -/
theorem createProfileUrl_console_branch_witness :
    createProfileUrl (c2User "u" []) c2Profile
        (some "https://us-east-1.console.aws.amazon.com/ec2/home?x=1")
      = "https://.awsapps.com/start/#/console?account_id=undefined&role_name=r&destination=https%3A%2F%2Fus-east-1.console.aws.amazon.com%2Fec2%2Fhome%3Fx%3D1"
    ∧ createProfileUrl (c2User "u" []) c2Profile (some "https://example.com/")
      = "https://.awsapps.com/start/#/console?account_id=undefined&role_name=r" := by
  constructor
  · exact ((createProfileUrl_console_branch (c2User "u" []) c2Profile
      "https://us-east-1.console.aws.amazon.com/ec2/home?x=1" (by decide)).1).trans (by decide)
  · exact ((createProfileUrl_console_branch (c2User "u" []) c2Profile
      "https://example.com/" (by decide)).1).trans (by decide)

/-- Claim C10: under the `"lastUserId"` policy, `getDefaultUser` falls back
to the first user of the (most-recently-updated-first) users list when no
user matches `settings.lastUserId`; under a specific-user-id policy it
returns no user at all when no user carries that id. -/
theorem getDefaultUser_fallback (d : ExtensionDataModel) :
    (jsGet d.settings "defaultUser" = .vStr "lastUserId" →
      (∀ u ∈ d.users,
        jsStrictEqPrim (jsGet u "userId") (jsGet d.settings "lastUserId") = false) →
      getDefaultUser d = d.users.head?)
    ∧ (∀ uid, jsGet d.settings "defaultUser" = .vStr uid → uid ≠ "lastUserId" →
        (∀ u ∈ d.users, jsStrictEqPrim (jsGet u "userId") (.vStr uid) = false) →
        getDefaultUser d = none) := by
  constructor
  · intro hdef hnone
    unfold getDefaultUser
    have hc : jsStrictEqPrim (jsGet d.settings "defaultUser") (.vStr "lastUserId") = true := by
      rw [hdef]
      rfl
    rw [if_pos hc]
    have hfind : d.users.find?
        (fun u => jsStrictEqPrim (jsGet u "userId") (jsGet d.settings "lastUserId")) = none :=
      List.find?_eq_none.mpr (fun u hu => by rw [hnone u hu]; exact Bool.false_ne_true)
    rw [hfind]
  · intro uid hdef hne hnone
    unfold getDefaultUser
    have hc : ¬(jsStrictEqPrim (jsGet d.settings "defaultUser") (.vStr "lastUserId") = true) := by
      rw [hdef]
      simp [jsStrictEqPrim, hne]
    rw [if_neg hc]
    have hfil : d.users.filter
        (fun u => jsStrictEqPrim (jsGet u "userId") (jsGet d.settings "defaultUser")) = [] := by
      refine List.filter_eq_nil_iff.mpr (fun u hu => ?_)
      rw [hdef, hnone u hu]
      exact Bool.false_ne_true
    rw [hfil]
    rfl

/-- Witness for C10: a data value whose `lastUserId` matches no user falls
back to the first user; a specific-user-id policy naming an absent id
yields no user. -/
theorem getDefaultUser_fallback_witness :
    getDefaultUser
      { updatedAt := .vNum 9
        appProfiles := []
        settings := [("defaultUser", .vStr "lastUserId"), ("lastUserId", .vStr "gone")]
        users := [[("userId", .vStr "a")], [("userId", .vStr "b")]]
        iamLogins := [] }
      = some [("userId", .vStr "a")]
    ∧ getDefaultUser
      { updatedAt := .vNum 9
        appProfiles := []
        settings := [("defaultUser", .vStr "zz")]
        users := [[("userId", .vStr "a")], [("userId", .vStr "b")]]
        iamLogins := [] }
      = none := by
  constructor
  · exact ((getDefaultUser_fallback
      { updatedAt := .vNum 9
        appProfiles := []
        settings := [("defaultUser", .vStr "lastUserId"), ("lastUserId", .vStr "gone")]
        users := [[("userId", .vStr "a")], [("userId", .vStr "b")]]
        iamLogins := [] }).1 rfl (by decide)).trans rfl
  · exact (getDefaultUser_fallback
      { updatedAt := .vNum 9
        appProfiles := []
        settings := [("defaultUser", .vStr "zz")]
        users := [[("userId", .vStr "a")], [("userId", .vStr "b")]]
        iamLogins := [] }).2 "zz" rfl (by decide) (by decide)

/-- Mapping a lookup over a list, keeping the defined results, and
extracting them is `filterMap`. -/
theorem map_filter_isSome_getD {α β : Type} (f : α → Option β) (l : List α) (d : β) :
    ((l.map f).filter (fun o => o.isSome)).map (fun o => o.getD d) = l.filterMap f := by
  induction l with
  | nil => rfl
  | cons a t ih =>
    rw [List.map_cons, List.filter_cons, List.filterMap_cons]
    cases hf : f a with
    | none => simpa using ih
    | some b =>
      rw [if_pos (show (some b).isSome = true from rfl), List.map_cons, Option.getD_some, ih]

/-- `filterMap` keeps exactly the elements whose lookup is defined. -/
theorem length_filterMap_eq_length_filter {α β : Type} (f : α → Option β) (l : List α) :
    (l.filterMap f).length = (l.filter (fun a => (f a).isSome)).length := by
  induction l with
  | nil => rfl
  | cons a t ih =>
    rw [List.filterMap_cons, List.filter_cons]
    cases hf : f a with
    | none => simpa [hf] using ih
    | some b => simp [hf, ih]

/-- Claim C9: in `loadData`, every referenced profile id with no stored
record is silently omitted (no error, no placeholder), and the returned
`appProfiles` holds exactly one parsed record per deduplicated referenced
id present in local storage, in first-reference order. -/
theorem loadData_missing_profiles_omitted (name : String) (st : BrowserState) :
    (loadData name st).appProfiles
      = (jsSetDedup (((loadData name st).users.map
          (fun u => asStringList (jsGet u "appProfileIds"))).flatten)).filterMap st.localArea
    ∧ ((loadData name st).appProfiles).length
      = ((jsSetDedup (((loadData name st).users.map
          (fun u => asStringList (jsGet u "appProfileIds"))).flatten)).filter
            (fun pid => (st.localArea pid).isSome)).length := by
  constructor
  · simp only [loadData]
    rw [map_filter_isSome_getD]
  · simp only [loadData]
    rw [map_filter_isSome_getD, length_filterMap_eq_length_filter]

theorem asStringList_map_vStr (l : List String) :
    asStringList (.vArr (l.map .vStr)) = l := by
  unfold asStringList
  induction l with
  | nil => rfl
  | cons a t ih => simpa using ih

/-- The `appProfileIds` read by `removeUser` comes straight from the stored
user record (`loadUser` only adds the `custom` field). -/
theorem loadUser_appProfileIds (name uid : String) (es : Bool) (st : BrowserState)
    (u : JsObject) (hu : st.area es (userKey name uid) = some (.vObj u)) :
    jsGet (loadUser name uid es st) "appProfileIds" = jsGet u "appProfileIds" := by
  simp only [loadUser, hu, asObj]
  unfold jsGet
  rw [alGet_setKey_other _ _ _ _ (by decide)]

theorem saveDataSync_localArea (st : BrowserState) (k : String) (v : JsValue) (t : Int) :
    (saveDataSync st k v t).localArea = st.localArea := rfl

theorem saveDataSync_sync_get (st : BrowserState) (k : String) (v : JsValue) (t : Int)
    (k' : String) :
    (saveDataSync st k v t).sync k'
      = if k' = k then some (stampUpdatedAt v t) else st.sync k' := rfl

theorem saveDataLocal_sync (st : BrowserState) (k : String) (v : JsValue) (t : Int) :
    (saveDataLocal st k v t).sync = st.sync := rfl

theorem saveDataLocal_localArea_get (st : BrowserState) (k : String) (v : JsValue) (t : Int)
    (k' : String) :
    (saveDataLocal st k v t).localArea k'
      = if k' = k then some (stampUpdatedAt v t) else st.localArea k' := rfl

theorem ite_saveSettings_localArea (c : Prop) [Decidable c] (n : String) (v : JsValue)
    (t : Int) (s : BrowserState) :
    (if c then saveSettings n v t s else s).localArea = s.localArea := by
  split <;> rfl

theorem ite_saveSettings_sync_get (c : Prop) [Decidable c] (n : String) (v : JsValue)
    (t : Int) (s : BrowserState) (k' : String) (hk : k' ≠ settingsKey n) :
    (if c then saveSettings n v t s else s).sync k' = s.sync k' := by
  split
  · show (saveDataSync s (settingsKey n) v t).sync k' = s.sync k'
    rw [saveDataSync_sync_get, if_neg hk]
  · rfl

/-- After `removeUser`, every profile record the user owned is gone from
local storage. -/
theorem removeUser_removes_profiles
    (name uid : String) (es : Bool) (now : Int) (st : BrowserState)
    (u : JsObject) (pids : List String)
    (hu : st.area es (userKey name uid) = some (.vObj u))
    (hap : alGet u "appProfileIds" = some (.vArr (pids.map .vStr)))
    (hiam : iamKey name ∉ pids) :
    ∀ pid ∈ pids, (removeUser name uid es now st).localArea pid = none := by
  intro pid hpid
  have hA : jsGet (loadUser name uid es st) "appProfileIds" = .vArr (pids.map .vStr) := by
    rw [loadUser_appProfileIds name uid es st u hu]
    unfold jsGet
    rw [hap]
    rfl
  have hlen : (pids.map JsValue.vStr).length > 0 := by
    simp only [List.length_map]
    exact List.length_pos.mpr (List.ne_nil_of_mem hpid)
  have hpid_ne_iam : pid ≠ iamKey name := fun he => hiam (he ▸ hpid)
  simp only [removeUser, hA, asStringList_map_vStr, if_pos hlen,
    ite_saveSettings_localArea, saveDataSync_localArea, saveDataLocal_localArea_get,
    if_neg hpid_ne_iam]
  simp [storeRemove, hpid]

theorem BrowserState_sync_ite (c : Prop) [Decidable c] (a b : BrowserState) :
    (if c then a else b).sync = if c then a.sync else b.sync := by
  split <;> rfl

theorem BrowserState_localArea_ite (c : Prop) [Decidable c] (a b : BrowserState) :
    (if c then a else b).localArea = if c then a.localArea else b.localArea := by
  split <;> rfl

theorem loadUsersList_eq (name : String) (s : BrowserState) (l : List String)
    (h : s.sync (usersKey name) = some (.vObj [("users", .vArr (l.map .vStr))])) :
    loadUsersList name s = l := by
  unfold loadUsersList
  rw [h]
  show asStringList (jsGet (asObj _) "users") = l
  simp [asObj, jsGet, alGet_cons, asStringList_map_vStr]

/-- After `removeUser`, the saved IAM-login mapping has no entry keyed by
any of the removed user's former profile ids. -/
theorem removeUser_iam_logins
    (name uid : String) (es : Bool) (now : Int) (st : BrowserState)
    (u : JsObject) (pids : List String)
    (hu : st.area es (userKey name uid) = some (.vObj u))
    (hap : alGet u "appProfileIds" = some (.vArr (pids.map .vStr)))
    (hupd : "updatedAt" ∉ pids) :
    ∃ iam, (removeUser name uid es now st).localArea (iamKey name) = some (.vObj iam)
      ∧ ∀ pid ∈ pids, alGet iam pid = none := by
  have hA : jsGet (loadUser name uid es st) "appProfileIds" = .vArr (pids.map .vStr) := by
    rw [loadUser_appProfileIds name uid es st u hu]
    unfold jsGet
    rw [hap]
    rfl
  simp only [removeUser, hA, asStringList_map_vStr,
    ite_saveSettings_localArea, saveDataSync_localArea, saveDataLocal_localArea_get,
    if_pos rfl]
  refine ⟨_, rfl, ?_⟩
  intro pid hpid
  show alGet (setKey _ "updatedAt" (JsValue.vNum now)) pid = none
  rw [alGet_setKey_other _ _ _ _ (fun he : pid = "updatedAt" => hupd (he ▸ hpid)),
    alGet_foldl_removeObjKey, if_pos hpid]

/-- After `removeUser`, the global users list no longer contains the
removed user id. -/
theorem removeUser_users_list
    (name uid : String) (es : Bool) (now : Int) (st : BrowserState)
    (u : JsObject) (pids origUsers : List String)
    (hu : st.area es (userKey name uid) = some (.vObj u))
    (hap : alGet u "appProfileIds" = some (.vArr (pids.map .vStr)))
    (husers : st.sync (usersKey name) = some (.vObj [("users", .vArr (origUsers.map .vStr))]))
    (hk4 : usersKey name ≠ userKey name uid)
    (hk5 : usersKey name ≠ customKey name uid)
    (hk8 : usersKey name ≠ settingsKey name) :
    ∃ uobj, (removeUser name uid es now st).sync (usersKey name) = some (.vObj uobj)
      ∧ alGet uobj "users"
          = some (.vArr ((origUsers.filter (fun i => i ≠ uid)).map .vStr)) := by
  have hA : jsGet (loadUser name uid es st) "appProfileIds" = .vArr (pids.map .vStr) := by
    rw [loadUser_appProfileIds name uid es st u hu]
    unfold jsGet
    rw [hap]
    rfl
  simp only [removeUser, hA, asStringList_map_vStr]
  rw [ite_saveSettings_sync_get _ _ _ _ _ _ hk8]
  rw [saveDataSync_sync_get, if_pos rfl]
  rw [loadUsersList_eq name _ origUsers
    (by cases es <;> simp [saveDataLocal_sync, BrowserState_sync_ite, storeRemove_get,
      hk4, hk5, husers, ite_self])]
  refine ⟨_, rfl, ?_⟩
  show alGet (setKey [("users", _)] "updatedAt" (JsValue.vNum now)) "users" = _
  rw [alGet_setKey_other _ _ _ _ (by decide), alGet_cons, if_pos rfl]

theorem loadSettings_congr (name : String) (s1 s2 : BrowserState)
    (h : s1.sync (settingsKey name) = s2.sync (settingsKey name)) :
    loadSettings name s1 = loadSettings name s2 := by
  unfold loadSettings
  rw [h]

/-- After `removeUser` of the default or last-active user, the saved
settings carry `lastUserId` reset to the first remaining user id (or `""`)
and `defaultUser` reset to the `"lastUserId"` policy when it pointed at the
removed user (and untouched otherwise). -/
theorem removeUser_settings_update
    (name uid : String) (es : Bool) (now : Int) (st : BrowserState)
    (u : JsObject) (pids origUsers : List String)
    (hu : st.area es (userKey name uid) = some (.vObj u))
    (hap : alGet u "appProfileIds" = some (.vArr (pids.map .vStr)))
    (husers : st.sync (usersKey name) = some (.vObj [("users", .vArr (origUsers.map .vStr))]))
    (hk4 : usersKey name ≠ userKey name uid)
    (hk5 : usersKey name ≠ customKey name uid)
    (hk6 : settingsKey name ≠ userKey name uid)
    (hk7 : settingsKey name ≠ customKey name uid)
    (hk8 : usersKey name ≠ settingsKey name)
    (hcond : jsStrictEqPrim (jsGet (loadSettings name st) "defaultUser") (.vStr uid) = true
      ∨ jsStrictEqPrim (jsGet (loadSettings name st) "lastUserId") (.vStr uid) = true) :
    ∃ sobj, (removeUser name uid es now st).sync (settingsKey name) = some (.vObj sobj)
      ∧ alGet sobj "lastUserId"
          = some (.vStr ((origUsers.filter (fun i => i ≠ uid)).headD ""))
      ∧ (jsStrictEqPrim (jsGet (loadSettings name st) "defaultUser") (.vStr uid) = true →
          alGet sobj "defaultUser" = some (.vStr "lastUserId"))
      ∧ (jsStrictEqPrim (jsGet (loadSettings name st) "defaultUser") (.vStr uid) = false →
          alGet sobj "defaultUser" = alGet (loadSettings name st) "defaultUser") := by
  have hA : jsGet (loadUser name uid es st) "appProfileIds" = .vArr (pids.map .vStr) := by
    rw [loadUser_appProfileIds name uid es st u hu]
    unfold jsGet
    rw [hap]
    rfl
  simp only [removeUser, hA, asStringList_map_vStr]
  rw [loadUsersList_eq name _ origUsers
    (by cases es <;> simp [saveDataLocal_sync, BrowserState_sync_ite, storeRemove_get,
      hk4, hk5, husers, ite_self])]
  rw [loadSettings_congr name _ st
    (by cases es <;> simp [saveDataSync_sync_get, saveDataLocal_sync,
      BrowserState_sync_ite, storeRemove_get, hk6, hk7, Ne.symm hk8, ite_self])]
  have hcb : (jsStrictEqPrim (jsGet (loadSettings name st) "defaultUser") (.vStr uid)
      || jsStrictEqPrim (jsGet (loadSettings name st) "lastUserId") (.vStr uid)) = true := by
    rcases hcond with h | h <;> simp [h]
  rw [if_pos hcb]
  show ∃ sobj, (saveSettings name _ now _).sync (settingsKey name) = some (.vObj sobj) ∧ _
  unfold saveSettings
  rw [saveDataSync_sync_get, if_pos rfl]
  by_cases hdef : jsStrictEqPrim (jsGet (loadSettings name st) "defaultUser") (.vStr uid) = true
  · rw [if_pos hdef]
    refine ⟨_, rfl, ?_, ?_, ?_⟩
    · show alGet (setKey _ "updatedAt" (JsValue.vNum now)) "lastUserId" = _
      rw [alGet_setKey_other _ _ _ _ (by decide), alGet_setKey_other _ _ _ _ (by decide),
        alGet_setKey_self]
    · intro _
      show alGet (setKey _ "updatedAt" (JsValue.vNum now)) "defaultUser" = _
      rw [alGet_setKey_other _ _ _ _ (by decide), alGet_setKey_self]
    · intro hfalse
      rw [hdef] at hfalse
      cases hfalse
  · rw [if_neg hdef]
    refine ⟨_, rfl, ?_, ?_, ?_⟩
    · show alGet (setKey _ "updatedAt" (JsValue.vNum now)) "lastUserId" = _
      rw [alGet_setKey_other _ _ _ _ (by decide), alGet_setKey_self]
    · intro htrue
      exact absurd htrue hdef
    · intro _
      show alGet (setKey _ "updatedAt" (JsValue.vNum now)) "defaultUser" = _
      rw [alGet_setKey_other _ _ _ _ (by decide),
        alGet_setKey_other _ _ _ _ (by decide)]

/-- Claim C6: after `removeUser(userId)` completes, the IAM-login mapping
contains no entry keyed by any of the user's former `appProfileIds`, every
application-profile record the user owned is removed from local storage,
and the user id is removed from the global users id list; moreover, if
`settings.lastUserId` or `settings.defaultUser` equaled the removed user
id, `lastUserId` is set to the first remaining user id (or `""` if none
remain) and `defaultUser` is reset to the `"lastUserId"` policy exactly
when it pointed at the removed user.  The hypotheses say the user record is
stored and well formed and that the storage keys involved do not collide. -/
theorem removeUser_cleanup
    (name uid : String) (es : Bool) (now : Int) (st : BrowserState)
    (u : JsObject) (pids origUsers : List String)
    (hu : st.area es (userKey name uid) = some (.vObj u))
    (hap : alGet u "appProfileIds" = some (.vArr (pids.map .vStr)))
    (husers : st.sync (usersKey name) = some (.vObj [("users", .vArr (origUsers.map .vStr))]))
    (hupd : "updatedAt" ∉ pids)
    (hiam : iamKey name ∉ pids)
    (hk4 : usersKey name ≠ userKey name uid)
    (hk5 : usersKey name ≠ customKey name uid)
    (hk6 : settingsKey name ≠ userKey name uid)
    (hk7 : settingsKey name ≠ customKey name uid)
    (hk8 : usersKey name ≠ settingsKey name) :
    (∃ iam, (removeUser name uid es now st).localArea (iamKey name) = some (.vObj iam)
        ∧ ∀ pid ∈ pids, alGet iam pid = none)
    ∧ (∀ pid ∈ pids, (removeUser name uid es now st).localArea pid = none)
    ∧ (∃ uobj, (removeUser name uid es now st).sync (usersKey name) = some (.vObj uobj)
        ∧ alGet uobj "users"
            = some (.vArr ((origUsers.filter (fun i => i ≠ uid)).map .vStr)))
    ∧ uid ∉ origUsers.filter (fun i => i ≠ uid)
    ∧ ((jsStrictEqPrim (jsGet (loadSettings name st) "defaultUser") (.vStr uid) = true
        ∨ jsStrictEqPrim (jsGet (loadSettings name st) "lastUserId") (.vStr uid) = true) →
        ∃ sobj, (removeUser name uid es now st).sync (settingsKey name) = some (.vObj sobj)
          ∧ alGet sobj "lastUserId"
              = some (.vStr ((origUsers.filter (fun i => i ≠ uid)).headD ""))
          ∧ (jsStrictEqPrim (jsGet (loadSettings name st) "defaultUser") (.vStr uid) = true →
              alGet sobj "defaultUser" = some (.vStr "lastUserId"))
          ∧ (jsStrictEqPrim (jsGet (loadSettings name st) "defaultUser") (.vStr uid) = false →
              alGet sobj "defaultUser" = alGet (loadSettings name st) "defaultUser")) := by
  refine ⟨removeUser_iam_logins name uid es now st u pids hu hap hupd,
    removeUser_removes_profiles name uid es now st u pids hu hap hiam,
    removeUser_users_list name uid es now st u pids origUsers hu hap husers hk4 hk5 hk8,
    ?_,
    fun hcond => removeUser_settings_update name uid es now st u pids origUsers hu hap husers
      hk4 hk5 hk6 hk7 hk8 hcond⟩
  simp

/-- The concrete store for the C6 witness: user `alice` (owning `p1`,
`p2`) and `bob` are registered; `alice` is both the configured default and
last-active user; local storage holds both profile records and IAM logins
for `p1` and `p3`. -/
def c6State : BrowserState :=
  { sync := fun k =>
      if k = "n-user-alice" then
        some (.vObj [("userId", .vStr "alice"),
          ("appProfileIds", .vArr [.vStr "p1", .vStr "p2"])])
      else if k = "n-users" then
        some (.vObj [("users", .vArr [.vStr "alice", .vStr "bob"])])
      else if k = "n-settings" then
        some (.vObj [("defaultUser", .vStr "alice"), ("lastUserId", .vStr "alice")])
      else none
    localArea := fun k =>
      if k = "p1" then some (.vObj [("name", .vStr "one")])
      else if k = "p2" then some (.vObj [("name", .vStr "two")])
      else if k = "n-iam-logins" then
        some (.vObj [("p1", .vObj [("roleName", .vStr "r")]), ("p3", .vObj [])])
      else none }

/-- Witness for C6: removing `alice` from the concrete store clears her
profile records and IAM entries, drops her from the users list, and resets
`lastUserId` to `bob` and `defaultUser` to the `"lastUserId"` policy. -/
theorem removeUser_cleanup_witness :
    (∃ iam, (removeUser "n" "alice" true 7 c6State).localArea (iamKey "n") = some (.vObj iam)
        ∧ ∀ pid ∈ ["p1", "p2"], alGet iam pid = none)
    ∧ (∀ pid ∈ ["p1", "p2"], (removeUser "n" "alice" true 7 c6State).localArea pid = none)
    ∧ (∃ uobj, (removeUser "n" "alice" true 7 c6State).sync (usersKey "n") = some (.vObj uobj)
        ∧ alGet uobj "users"
            = some (.vArr (((["alice", "bob"].filter (fun i => i ≠ "alice"))).map .vStr)))
    ∧ "alice" ∉ ["alice", "bob"].filter (fun i => i ≠ "alice")
    ∧ (∃ sobj, (removeUser "n" "alice" true 7 c6State).sync (settingsKey "n")
          = some (.vObj sobj)
        ∧ alGet sobj "lastUserId"
            = some (.vStr ((["alice", "bob"].filter (fun i => i ≠ "alice")).headD ""))
        ∧ alGet sobj "defaultUser" = some (.vStr "lastUserId")) := by
  obtain ⟨w1, w2, w3, w4, w5⟩ := removeUser_cleanup "n" "alice" true 7 c6State
    [("userId", .vStr "alice"), ("appProfileIds", .vArr [.vStr "p1", .vStr "p2"])]
    ["p1", "p2"] ["alice", "bob"]
    rfl rfl rfl (by decide) (by decide) (by decide) (by decide) (by decide) (by decide)
    (by decide)
  obtain ⟨sobj, hs1, hs2, hs3, _⟩ := w5 (Or.inl rfl)
  exact ⟨w1, w2, w3, w4, sobj, hs1, hs2, hs3 rfl⟩
